import Mathlib

/-
Verification development for the rss2json repository.

The Lean definitions below are a shallow embedding of the Go source:
the rss package (error taxonomy, fetchAndParse, Convert, the thumbnail
scanner, maxFeedBytes, dialSocks5) and the server package (mapError).
Pure Go functions become Lean functions; the HTTP transport, the gofeed
parser and the XML tokenizer are external collaborators and are modelled
as explicit inputs (an environment record and a token stream).
Machine integers (int64) are modelled as Int with explicit range checks
where the source checks ranges.
-/

namespace Rss2Json

/-- ErrorKind mirrors the rss package error kinds: ErrorKindInvalidInput
and ErrorKindUpstream. -/
inductive ErrorKind where
  | invalidInput
  | upstream
deriving DecidableEq, Repr, Inhabited

/-- Cause models the Go error value wrapped inside a FeedError: its
Error() message and whether it is classified as a timeout error
(errors.Is(err, context.DeadlineExceeded) or a net.Error whose
Timeout() reports true). -/
structure Cause where
  msg : String
  isTimeout : Bool
deriving DecidableEq, Repr, Inhabited

/-- FeedError mirrors the rss.FeedError struct: a Kind and a wrapped
cause (the Err field). -/
structure FeedError where
  kind : ErrorKind
  cause : Cause
deriving DecidableEq, Repr, Inhabited

/-- newInvalidInputErr mirrors rss.newInvalidInputErr. -/
def newInvalidInputErr (c : Cause) : FeedError :=
  { kind := ErrorKind.invalidInput, cause := c }

/-- newUpstreamErr mirrors rss.newUpstreamErr. -/
def newUpstreamErr (c : Cause) : FeedError :=
  { kind := ErrorKind.upstream, cause := c }

/-- IsInvalidInput mirrors rss.IsInvalidInput: errors.As succeeds for
every FeedError value, so the test reduces to comparing the kind. -/
def IsInvalidInput (e : FeedError) : Bool :=
  e.kind == ErrorKind.invalidInput

/-- isTimeoutErr mirrors server.isTimeout: it unwraps the FeedError
(via Unwrap) and reports whether the underlying cause is a timeout. -/
def isTimeoutErr (e : FeedError) : Bool :=
  e.cause.isTimeout

/-- mapError mirrors server.mapError: HTTP status and caller-facing
message chosen from the classified error. -/
def mapError (e : FeedError) : Nat × String :=
  if IsInvalidInput e then (400, "Missing rss url.")
  else if isTimeoutErr e then (504, "RSS fetch timeout.")
  else (502, "Cannot download this RSS feed, make sure the Rss URL is correct.")

/-- defaultMaxFeedBytes mirrors the constant int64(10 << 20), 10 MiB. -/
def defaultMaxFeedBytes : Int := 10 * 2 ^ 20

/-- trimChars drops whitespace characters from both ends of a character
list. -/
def trimChars (cs : List Char) : List Char :=
  ((cs.dropWhile Char.isWhitespace).reverse.dropWhile Char.isWhitespace).reverse

/-- trimString models Go strings.TrimSpace (the inputs reasoned about
here only carry ASCII whitespace, where the two functions agree). -/
def trimString (s : String) : String :=
  String.mk (trimChars s.data)

/-- decDigitsVal folds a digit list into its decimal value; any
non-digit character yields none.  Models the digit loop of Go
strconv.ParseInt with base 10 (underscores are not accepted because the
base is given explicitly). -/
def decDigitsVal (cs : List Char) : Option Nat :=
  cs.foldl
    (fun acc c =>
      match acc with
      | none => none
      | some n => if c.isDigit then some (n * 10 + (c.toNat - 48)) else none)
    (some 0)

/-- parseInt64 models strconv.ParseInt(s, 10, 64): an optional sign,
a nonempty run of decimal digits, and a signed 64-bit range check
(values outside [-2^63, 2^63 - 1] return an error, modelled as none). -/
def parseInt64 (s : String) : Option Int :=
  match s.data with
  | [] => none
  | c :: cs =>
    let signNeg : Bool := c = '-'
    let digits : List Char := if c = '-' ∨ c = '+' then cs else c :: cs
    if digits = [] then none
    else
      match decDigitsVal digits with
      | none => none
      | some n =>
        let v : Int := if signNeg then -(n : Int) else (n : Int)
        if v < -(2 ^ 63) ∨ (2 ^ 63 - 1) < v then none else some v

/-- maxFeedBytes mirrors rss.maxFeedBytes; the RSS_MAX_BYTES environment
value is passed in explicitly (os.Getenv is an external input). -/
def maxFeedBytes (envRaw : String) : Int :=
  if trimString envRaw = "" then defaultMaxFeedBytes
  else
    match parseInt64 (trimString envRaw) with
    | none => defaultMaxFeedBytes
    | some val => if val ≤ 0 then defaultMaxFeedBytes else val

/-- XmlTok models one token produced by encoding/xml Decoder.Token on
the captured body bytes: start elements carry the local name and the
attribute list (local name, value); chardata carries text; other covers
comments, directives and processing instructions, which the scanner
ignores. -/
inductive XmlTok where
  | startEl (name : String) (attrs : List (String × String))
  | endEl (name : String)
  | chardata (s : String)
  | other
deriving DecidableEq, Repr, Inhabited

/-- TokenStream models the whole token stream the decoder yields for one
byte buffer: the tokens produced before the decoder stops, and whether
it stops with a non-EOF error (malformed XML mid-stream) instead of a
clean EOF. -/
structure TokenStream where
  toks : List XmlTok
  endsInError : Bool
deriving DecidableEq, Repr, Inhabited

/-- lowerAscii models strings.ToLower for the ASCII element and
attribute names the scanner compares against ("item", "entry",
"thumbnail", "url"); both functions lower A-Z to a-z. -/
def lowerAscii (s : String) : String :=
  String.mk (s.data.map Char.toLower)

/-- attrURL mirrors rss.attrURL: the trimmed value of the first
attribute whose local name equals "url" case-insensitively, else "". -/
def attrURL (attrs : List (String × String)) : String :=
  match attrs.find? (fun a => lowerAscii a.1 = "url") with
  | some a => trimString a.2
  | none => ""

/-- skipEl models encoding/xml Decoder.Skip after the start element has
just been consumed: it drops tokens until the end element matching the
current depth, and drops everything when the stream runs out first
(the decoder would then return an error, which the scanner ignores). -/
def skipEl : List XmlTok → Nat → List XmlTok
  | [], _ => []
  | tok :: rest, depth =>
    match tok with
    | XmlTok.startEl _ _ => skipEl rest (depth + 1)
    | XmlTok.endEl _ => if depth = 0 then rest else skipEl rest (depth - 1)
    | _ => skipEl rest depth

/-- decodeElText models Decoder.DecodeElement into a string after the
start element has been consumed: character data directly inside the
element is concatenated and child elements are skipped whole; none is
returned when the stream runs out before the matching end element
(DecodeElement then returns an error and the scanner keeps the previous
current value). -/
def decodeElText : List XmlTok → Nat → String → Option (String × List XmlTok)
  | [], _, _ => none
  | tok :: rest, depth, acc =>
    match tok with
    | XmlTok.startEl _ _ => decodeElText rest (depth + 1) acc
    | XmlTok.endEl _ =>
      if depth = 0 then some (acc, rest) else decodeElText rest (depth - 1) acc
    | XmlTok.chardata s =>
      decodeElText rest depth (if depth = 0 then acc ++ s else acc)
    | XmlTok.other => decodeElText rest depth acc

/-- extractLoop is the token loop of rss.extractItemThumbnails.  The
fuel argument bounds the number of iterations so the definition is
structurally recursive and executable; every iteration consumes the
head token and continues on a suffix of the rest, so fuel equal to the
stream length is always sufficient (theorem extractLoop_fuel_ge below),
and extractItemThumbnails instantiates it that way.  When the stream is
exhausted the two source return sites are kept apart: a non-EOF decoder
error returns the accumulated thumbnails (line 187 of the source), and
EOF breaks out of the loop and returns the accumulated thumbnails
(line 223). -/
def extractLoop (fuel : Nat) (stream : List XmlTok) (endsInError inItem : Bool)
    (current : String) (thumbnails : List String) : List String :=
  match fuel, stream with
  | _, [] => if endsInError then thumbnails else thumbnails
  | 0, _ :: _ => thumbnails
  | fuel + 1, tok :: rest =>
    match tok with
    | XmlTok.startEl name attrs =>
      let n := lowerAscii name
      if n = "item" ∨ n = "entry" then
        extractLoop fuel rest endsInError true "" thumbnails
      else if inItem = false ∨ ¬ n = "thumbnail" then
        extractLoop fuel rest endsInError inItem current thumbnails
      else if ¬ current = "" then
        extractLoop fuel (skipEl rest 0) endsInError inItem current thumbnails
      else if ¬ attrURL attrs = "" then
        extractLoop fuel (skipEl rest 0) endsInError inItem (attrURL attrs) thumbnails
      else
        match decodeElText rest 0 "" with
        | some (value, rest2) =>
          extractLoop fuel rest2 endsInError inItem (trimString value) thumbnails
        | none => extractLoop fuel [] endsInError inItem current thumbnails
    | XmlTok.endEl name =>
      let n := lowerAscii name
      if n = "item" ∨ n = "entry" then
        extractLoop fuel rest endsInError false current
          (if inItem then thumbnails ++ [trimString current] else thumbnails)
      else extractLoop fuel rest endsInError inItem current thumbnails
    | _ => extractLoop fuel rest endsInError inItem current thumbnails

/-- extractItemThumbnails mirrors rss.extractItemThumbnails on the token
stream of the captured body bytes (an empty byte body yields an empty
token stream, matching the len(body) == 0 early return). -/
def extractItemThumbnails (body : TokenStream) : List String :=
  extractLoop body.toks.length body.toks body.endsInError false "" []

/-- FeedItem models a gofeed.Item as used by this repository: opaque
content fields plus the Extensions field that stripExtensions clears. -/
structure FeedItem where
  title : String
  link : String
  guid : String
  extensions : List (String × String)
deriving DecidableEq, Repr, Inhabited

/-- Feed models a gofeed.Feed: feed-level fields, the ordered Items and
the Extensions field that stripExtensions clears. -/
structure Feed where
  title : String
  link : String
  items : List FeedItem
  extensions : List (String × String)
deriving DecidableEq, Repr, Inhabited

/-- stripExtensions mirrors rss.stripExtensions: clears the Extensions
of the feed and of every item (the Go version mutates in place; the
model returns the updated feed). -/
def stripExtensions (f : Feed) : Feed :=
  { f with
    extensions := [],
    items := f.items.map (fun it => { it with extensions := [] }) }

/-- ItemMeta mirrors model.ItemMeta: the embedded item plus the
Thumbnail string attached by Convert. -/
structure ItemMeta where
  item : FeedItem
  thumbnail : String
deriving DecidableEq, Repr, Inhabited

/-- NewItemMeta mirrors model.NewItemMeta (items in the model are never
nil pointers, so the nil guard has no counterpart). -/
def NewItemMeta (it : FeedItem) (thumbnail : String) : ItemMeta :=
  { item := it, thumbnail := thumbnail }

/-- APIVersion mirrors model.APIVersion. -/
def APIVersion : String := "v1"

/-- Response mirrors model.Response for the fields Convert populates. -/
structure Response where
  status : String
  version : String
  feed : Feed
  items : List ItemMeta
  message : String
deriving DecidableEq, Repr, Inhabited

/-- assembleItems mirrors the item loop of rss.Convert (lines 142-149):
item i receives thumbnail i when i is below the scanned count and the
empty string otherwise.  The index argument carries the loop variable
i. -/
def assembleItems : List FeedItem → List String → Nat → List ItemMeta
  | [], _, _ => []
  | it :: rest, thumbnails, i =>
    NewItemMeta it (if i < thumbnails.length then thumbnails.getD i "" else "") ::
      assembleItems rest thumbnails (i + 1)

/-- containsCTLByte is translated from Go net/url stringContainsCTLByte
(a byte below 0x20, or DEL), the first check of url parse; every byte of
a multi-byte UTF-8 character is at least 0x80, so the per-character test
here agrees with the per-byte test of the Go source.  A URL containing
such a byte makes http.NewRequestWithContext fail; for whitespace-only
URLs this is the only check of url parse that can fail (no colon, no
percent escape, no authority is present). -/
def containsCTLByte (s : String) : Bool :=
  s.data.any (fun c => c.toNat < 32 || c.toNat == 127)

/-- isSpaceGo is translated from Go unicode.IsSpace on the Latin-1 range
(the whitespace characters reachable in this claim): space, tab,
newline, vertical tab, form feed, carriage return, next line (U+0085)
and no-break space (U+00A0). -/
def isSpaceGo (c : Char) : Bool :=
  c = ' ' || c = '\t' || c = '\n' || c = Char.ofNat 11 || c = Char.ofNat 12 ||
    c = '\r' || c = Char.ofNat 133 || c = Char.ofNat 160

/-- getSchemeAux is translated from Go net/url getScheme: a scheme is a
leading ASCII-alphabetic character followed by alphanumerics or plus,
minus, dot, up to a colon; any other character before a colon means the
URL has no scheme.  (The one Go behavior not modelled: a colon at
position zero is a parse error there; no claim input contains a
colon.) -/
def getSchemeAux : List Char → List Char → String
  | [], _ => ""
  | c :: rest, acc =>
    if c = ':' then (if acc.isEmpty then "" else String.mk acc.reverse)
    else if c.isAlpha ∨ (¬ acc.isEmpty ∧ (c.isDigit ∨ c = '+' ∨ c = '-' ∨ c = '.')) then
      getSchemeAux rest (c :: acc)
    else ""

/-- isHTTPScheme is translated from the scheme test of Go
net/http Transport.roundTrip: the request reaches the wire only when
the parsed scheme (lowercased by net/url parse) is http or https;
otherwise RoundTrip returns the unsupported-protocol-scheme error
before any network traffic, which Client.Do hands back to the
caller. -/
def isHTTPScheme (s : String) : Bool :=
  lowerAscii (getSchemeAux s.data []) == "http" ||
    lowerAscii (getSchemeAux s.data []) == "https"

/-- FetchEnv gathers the external collaborators of one fetchAndParse
call: the transport outcome for a dispatchable request (doErr), the
response status and body length, how many bytes the gofeed parser
consumes from its reader before returning (parseReadLen, capped by the
bytes actually available), whether it succeeds (parseOk) and with which
feed, or fails with which message, and the XML token stream the
encoding/xml decoder yields for the captured bytes (bodyTokens). -/
structure FetchEnv where
  doErr : Option Cause
  status : Nat
  bodyLen : Nat
  parseReadLen : Nat
  parseOk : Bool
  parseErrMsg : String
  parsedFeed : Feed
  bodyTokens : TokenStream
deriving DecidableEq, Repr, Inhabited

/-- missingURLError is the error of rss.Convert for an empty URL. -/
def missingURLError : FeedError :=
  newInvalidInputErr { msg := "缺少 rss url", isTimeout := false }

/-- requestCreateError is the error of rss.fetchAndParse when
http.NewRequestWithContext rejects the URL: the source wraps the Go
parse error as newInvalidInputErr, which fixes the kind (InvalidInput),
the message stem 创建请求失败 and the non-timeout classification; the
rest of the cause text comes from the Go error value and varies with
the URL, so it is represented here by a fixed placeholder on which no
theorem depends. -/
def requestCreateError : FeedError :=
  newInvalidInputErr { msg := "创建请求失败: net/url: invalid control character in URL", isTimeout := false }

/-- downloadFailError is the error of rss.fetchAndParse when
defaultHTTPClient.Do fails; the cause message and timeout flag come
from the transport error. -/
def downloadFailError (c : Cause) : FeedError :=
  newUpstreamErr { msg := "下载 RSS 失败: " ++ c.msg, isTimeout := c.isTimeout }

/-- schemeDoError is the downloadFailError produced when the request URL
has no http or https scheme: RoundTrip rejects it deterministically
before any network traffic, and the source wraps the Do error as
newUpstreamErr, which fixes the kind (Upstream), the message stem
下载 RSS 失败 and the non-timeout classification (the wrapped url.Error
carries no Timeout); the exact cause text embeds the URL in Go and is
represented here by a fixed placeholder on which no theorem depends. -/
def schemeDoError : FeedError :=
  downloadFailError { msg := "unsupported protocol scheme", isTimeout := false }

/-- statusError is the error of rss.fetchAndParse for a non-2xx status:
the status code is embedded in the detail message. -/
def statusError (status : Nat) : FeedError :=
  newUpstreamErr { msg := "RSS 返回非 2xx 状态码: " ++ toString status, isTimeout := false }

/-- sizeLimitError is the error of rss.fetchAndParse when the limited
reader ran dry (the body reached maxBytes + 1 bytes). -/
def sizeLimitError (maxBytes : Int) : FeedError :=
  newUpstreamErr { msg := "RSS 内容超过限制: " ++ toString maxBytes ++ " bytes", isTimeout := false }

/-- parseFailError is the error of rss.fetchAndParse when gofeed fails
and the limit was not reached. -/
def parseFailError (m : String) : FeedError :=
  newUpstreamErr { msg := "解析 RSS 失败: " ++ m, isTimeout := false }

/-- FetchOut is the outcome of the modelled fetchAndParse: the result
(feed and scanned thumbnails, or a classified error) plus how many body
bytes were read from the response, so that claims about the body not
being read are statable. -/
structure FetchOut where
  result : Except FeedError (Feed × List String)
  bytesBodyRead : Nat
deriving Repr, Inhabited

/-- fetchAndParse mirrors rss.fetchAndParse (part_003 lines 86-128).
Request creation and dispatch follow the modelled net/url and transport
behavior; the 2xx check, the io.LimitedReader of maxBytes + 1 bytes,
the tee into the capture buffer, the gofeed parse, the two limited.N
== 0 checks and the thumbnail scan mirror the source.  bytesRead is
what the parser pulls through the tee: capped by the body length and,
when maxBytes > 0, by the reader ceiling maxBytes + 1; limited.N == 0
is equivalent to bytesRead reaching that ceiling. -/
def fetchAndParse (url : String) (env : FetchEnv) (maxBytes : Int) : FetchOut :=
  if containsCTLByte url then
    { result := Except.error requestCreateError, bytesBodyRead := 0 }
  else if isHTTPScheme url = false then
    { result := Except.error schemeDoError, bytesBodyRead := 0 }
  else
    match env.doErr with
    | some c => { result := Except.error (downloadFailError c), bytesBodyRead := 0 }
    | none =>
      if env.status < 200 ∨ 300 ≤ env.status then
        { result := Except.error (statusError env.status), bytesBodyRead := 0 }
      else
        let ceiling : Nat := (maxBytes + 1).toNat
        let bytesRead : Nat :=
          if 0 < maxBytes then min env.parseReadLen (min env.bodyLen ceiling)
          else min env.parseReadLen env.bodyLen
        let limitedDrained : Bool := decide (0 < maxBytes) && decide (bytesRead = ceiling)
        if env.parseOk = false then
          if limitedDrained then
            { result := Except.error (sizeLimitError maxBytes), bytesBodyRead := bytesRead }
          else
            { result := Except.error (parseFailError env.parseErrMsg), bytesBodyRead := bytesRead }
        else if limitedDrained then
          { result := Except.error (sizeLimitError maxBytes), bytesBodyRead := bytesRead }
        else
          { result := Except.ok (env.parsedFeed, extractItemThumbnails env.bodyTokens),
            bytesBodyRead := bytesRead }

/-- Convert mirrors rss.Convert (part_003 lines 131-157): the empty-URL
guard, delegation to fetchAndParse, stripExtensions, the thumbnail
pairing loop and the assembled success response. -/
def Convert (url : String) (env : FetchEnv) (maxBytes : Int) : Except FeedError Response :=
  if url = "" then Except.error missingURLError
  else
    match (fetchAndParse url env maxBytes).result with
    | Except.error e => Except.error e
    | Except.ok (feed, thumbnails) =>
      let stripped := stripExtensions feed
      Except.ok
        { status := "ok", version := APIVersion, feed := stripped,
          items := assembleItems stripped.items thumbnails 0, message := "" }

/-- convCore projects a Convert outcome onto everything except the
per-item thumbnails: the classified error on failure, and the status,
version and feed on success. -/
def convCore (r : Except FeedError Response) : Except FeedError (String × String × Feed) :=
  r.map (fun resp => (resp.status, resp.version, resp.feed))

/-- HostForm abstracts the result of net.ParseIP on the CONNECT target
host in rss.dialSocks5: ip4 when ParseIP succeeds and To4 is non-nil
(the four bytes of To4), ip6 when ParseIP succeeds and To4 is nil (the
sixteen bytes of To16), domain when ParseIP fails (the raw bytes of the
host string). -/
inductive HostForm where
  | ip4 (a b c d : Nat)
  | ip6 (bytes : List Nat)
  | domain (hostBytes : List Nat)
deriving DecidableEq, Repr, Inhabited

/-- encodeTargetAddr mirrors the address-encoding block of
rss.dialSocks5 (part_003 lines 366-380): type byte plus address bytes,
or none when a domain name exceeds 255 bytes (the dial aborts there,
before the CONNECT request exists). -/
def encodeTargetAddr : HostForm → Option (List Nat)
  | HostForm.ip4 a b c d => some [1, a, b, c, d]
  | HostForm.ip6 bs => some (4 :: bs)
  | HostForm.domain bs =>
    if 255 < bs.length then none else some (3 :: bs.length :: bs)

/-- connectRequest mirrors the CONNECT request assembly of
rss.dialSocks5 (part_003 lines 382-384): header 05 01 00, the encoded
target address, then the target port as byte(port >>> 8) and
byte(port); none when the address encoding already failed, in which
case nothing is written to the proxy connection. -/
def connectRequest (host : HostForm) (port : Nat) : Option (List Nat) :=
  match encodeTargetAddr host with
  | none => none
  | some addrBuf =>
    some ([5, 1, 0] ++ addrBuf ++ [(port >>> 8) % 256, port % 256])

/-- boundAddrSkip mirrors the switch on the reply address type in
rss.dialSocks5 (part_003 lines 401-417): the bound-address length to
discard, where a domain-type reply reads it from the 1-byte length
prefix; none for an unknown address type (the dial fails). -/
def boundAddrSkip (atyp : Nat) (domainLen : Nat) : Option Nat :=
  if atyp = 1 then some 4
  else if atyp = 3 then some domainLen
  else if atyp = 4 then some 16
  else none

/-- replyDiscardCount mirrors part_003 lines 418-424: after computing
skip, the code reads skip + 2 bytes (bound address plus the two port
bytes) but only when skip > 0; with skip = 0 it reads nothing at all. -/
def replyDiscardCount (atyp : Nat) (domainLen : Nat) : Option Nat :=
  match boundAddrSkip atyp domainLen with
  | none => none
  | some skip => some (if 0 < skip then skip + 2 else 0)

/-- errKindOf projects a Convert outcome onto the kind of its
classified error, if any: exactly the signal rss.IsInvalidInput exposes
to the boundary, and the only part of a failure the repository source
determines when the wrapped cause comes from the Go standard
library. -/
def errKindOf (r : Except FeedError Response) : Option ErrorKind :=
  match r with
  | Except.error e => some e.kind
  | Except.ok _ => none

/-- c1Item1 is a concrete feed item used to exercise Convert. -/
def c1Item1 : FeedItem :=
  { title := "Hello", link := "https://example.com/post", guid := "abc123",
    extensions := [("media", "x")] }

/-- c1Item2 is a second concrete feed item, beyond the scanned count. -/
def c1Item2 : FeedItem :=
  { title := "World", link := "https://example.com/post2", guid := "def456",
    extensions := [] }

/-- c1Env is a concrete successful-fetch environment: two parsed items
and a token stream yielding one scanned thumbnail. -/
def c1Env : FetchEnv :=
  { doErr := none, status := 200, bodyLen := 64, parseReadLen := 64,
    parseOk := true, parseErrMsg := "",
    parsedFeed :=
      { title := "Sample Feed", link := "https://example.com",
        items := [c1Item1, c1Item2], extensions := [("ext", "y")] },
    bodyTokens :=
      ⟨[XmlTok.startEl "item" [],
        XmlTok.startEl "thumbnail" [("url", " https://example.com/t1.png ")],
        XmlTok.endEl "thumbnail", XmlTok.endEl "item"], false⟩ }

/-- c1Resp is the response Convert produces on c1Env. -/
def c1Resp : Response :=
  { status := "ok", version := "v1",
    feed :=
      { title := "Sample Feed", link := "https://example.com",
        items := [{ c1Item1 with extensions := [] }, c1Item2], extensions := [] },
    items :=
      [{ item := { c1Item1 with extensions := [] },
         thumbnail := "https://example.com/t1.png" },
       { item := c1Item2, thumbnail := "" }],
    message := "" }

/-- c2Env is a concrete 2xx environment whose parser drains its reader;
the body length is varied by the C2 witness around the ceiling. -/
def c2Env : FetchEnv :=
  { doErr := none, status := 200, bodyLen := 64, parseReadLen := 1000,
    parseOk := true, parseErrMsg := "", parsedFeed := default,
    bodyTokens := ⟨[], false⟩ }

/-- c3Env is a concrete environment for exercising Convert on bad URLs;
its fields are irrelevant because the URL is rejected first. -/
def c3Env : FetchEnv :=
  { doErr := none, status := 200, bodyLen := 10, parseReadLen := 10,
    parseOk := true, parseErrMsg := "", parsedFeed := default,
    bodyTokens := ⟨[], false⟩ }

/-- c4Tokens is an item whose first thumbnail element has no url
attribute and empty text (its recorded value is empty) and whose second
thumbnail element carries a url attribute. -/
def c4Tokens : TokenStream :=
  ⟨[XmlTok.startEl "item" [],
    XmlTok.startEl "thumbnail" [], XmlTok.endEl "thumbnail",
    XmlTok.startEl "thumbnail" [("url", "https://example.com/second.png")],
    XmlTok.endEl "thumbnail", XmlTok.endEl "item"], false⟩

/-- c5Env is a concrete environment with a non-2xx status. -/
def c5Env : FetchEnv :=
  { doErr := none, status := 404, bodyLen := 999, parseReadLen := 999,
    parseOk := true, parseErrMsg := "", parsedFeed := default,
    bodyTokens := ⟨[], false⟩ }

/-- Claim C10 counterexample: RSS_MAX_BYTES set to 9223372036854775808
(2 to the 63rd power) is a positive decimal integer, yet maxFeedBytes
returns the 10 MiB default because strconv.ParseInt range-fails on it,
so the claim that every positive integer value is returned as-is is
false. -/
theorem C10_counterexample :
    maxFeedBytes "9223372036854775808" = defaultMaxFeedBytes ∧
    ¬ maxFeedBytes "9223372036854775808" = 9223372036854775808 := by
  decide

/-- Claim C10 (amended): the effective ceiling is always strictly
positive; empty or whitespace-only values, values that do not parse as
an int64 (non-integers and out-of-range integers) and non-positive
integers yield the 10 MiB default, and positive integers representable
in a signed 64-bit integer are returned as-is. -/
theorem C10_maxFeedBytes_amended (envRaw : String) :
    0 < maxFeedBytes envRaw ∧
    (trimString envRaw = "" → maxFeedBytes envRaw = defaultMaxFeedBytes) ∧
    (parseInt64 (trimString envRaw) = none → maxFeedBytes envRaw = defaultMaxFeedBytes) ∧
    (∀ v : Int, parseInt64 (trimString envRaw) = some v → v ≤ 0 →
      maxFeedBytes envRaw = defaultMaxFeedBytes) ∧
    (∀ v : Int, parseInt64 (trimString envRaw) = some v → 0 < v →
      maxFeedBytes envRaw = v) := by
  unfold maxFeedBytes
  refine ⟨?_, ?_, ?_, ?_, ?_⟩
  · split
    · decide
    · split
      · decide
      · split
        · decide
        · omega
  · intro h
    simp [h]
  · intro h
    by_cases he : trimString envRaw = ""
    · simp [he]
    · simp [he, h]
  · intro v hv hle
    by_cases he : trimString envRaw = ""
    · rw [he] at hv
      rw [show parseInt64 "" = none from rfl] at hv
      exact Option.noConfusion hv
    · simp [he, hv, hle]
  · intro v hv hpos
    by_cases he : trimString envRaw = ""
    · rw [he] at hv
      rw [show parseInt64 "" = none from rfl] at hv
      exact Option.noConfusion hv
    · have hnle : ¬ v ≤ 0 := by omega
      simp [he, hv, hnle]

/-- Witness for C10: a plain positive value is returned as-is. -/
theorem C10_maxFeedBytes_amended_witness : maxFeedBytes "42" = 42 :=
  (C10_maxFeedBytes_amended "42").2.2.2.2 42 (by decide) (by decide)

/-- Claim C9 counterexample: two failures both classified Upstream get
different caller-facing messages when exactly one of them is a timeout,
so the boundary message is not a function of the kind alone. -/
theorem C9_counterexample :
    (newUpstreamErr { msg := "context deadline exceeded", isTimeout := true }).kind =
      (newUpstreamErr { msg := "connection refused", isTimeout := false }).kind ∧
    ¬ (mapError (newUpstreamErr { msg := "context deadline exceeded", isTimeout := true })).2 =
      (mapError (newUpstreamErr { msg := "connection refused", isTimeout := false })).2 := by
  decide

/-- Claim C9 (amended): the caller-facing status and message depend only
on the kind together with the timeout classification of the underlying
cause, never on the cause message itself. -/
theorem C9_mapError_amended (e1 e2 : FeedError) (hk : e1.kind = e2.kind)
    (ht : e1.cause.isTimeout = e2.cause.isTimeout) : mapError e1 = mapError e2 := by
  unfold mapError IsInvalidInput isTimeoutErr
  rw [hk, ht]

/-- Witness for C9: two distinct non-timeout Upstream causes map to the
same status and message. -/
theorem C9_mapError_amended_witness :
    mapError { kind := ErrorKind.upstream, cause := { msg := "dns lookup failed", isTimeout := false } } =
      mapError { kind := ErrorKind.upstream, cause := { msg := "tls handshake failed", isTimeout := false } } :=
  C9_mapError_amended _ _ rfl rfl

/-- Claim C7 (code bug): the dialer reads skip + 2 reply bytes only when
skip > 0, so a domain-type CONNECT reply whose length prefix is 0
discards 0 bytes and leaves the 2 port bytes unread, while IPv4, IPv6
and nonzero-length domain replies discard the claimed bound-address
length plus 2 port bytes. -/
theorem C7_reply_discard_eval :
    replyDiscardCount 1 0 = some (4 + 2) ∧
    replyDiscardCount 4 0 = some (16 + 2) ∧
    replyDiscardCount 3 5 = some (5 + 2) ∧
    replyDiscardCount 3 0 = some 0 ∧
    ¬ replyDiscardCount 3 0 = some (0 + 2) := by
  decide

/-- Claim C6: the CONNECT request encodes an IPv4 target as type 1 plus
4 bytes, an IPv6 target as type 4 plus the 16 To16 bytes, and a domain
target as type 3 plus a length byte plus the name bytes, failing before
any CONNECT request exists when the name exceeds 255 bytes; the target
port is appended as two big-endian bytes. -/
theorem C6_socks5_target_encoding (port : Nat) (hport : port ≤ 65535) :
    (∀ a b c d : Nat, connectRequest (HostForm.ip4 a b c d) port =
      some ([5, 1, 0] ++ [1, a, b, c, d] ++ [port / 256, port % 256])) ∧
    (∀ bs : List Nat, connectRequest (HostForm.ip6 bs) port =
      some ([5, 1, 0] ++ (4 :: bs) ++ [port / 256, port % 256])) ∧
    (∀ bs : List Nat, bs.length ≤ 255 → connectRequest (HostForm.domain bs) port =
      some ([5, 1, 0] ++ (3 :: bs.length :: bs) ++ [port / 256, port % 256])) ∧
    (∀ bs : List Nat, 255 < bs.length → connectRequest (HostForm.domain bs) port = none) ∧
    port / 256 * 256 + port % 256 = port ∧ port / 256 < 256 ∧ port % 256 < 256 := by
  have h1 : port >>> 8 = port / 256 := by
    rw [Nat.shiftRight_eq_div_pow]
  have h2 : (port >>> 8) % 256 = port / 256 := by
    rw [h1]
    exact Nat.mod_eq_of_lt (by omega)
  refine ⟨?_, ?_, ?_, ?_, ?_, ?_, ?_⟩
  · intro a b c d
    simp [connectRequest, encodeTargetAddr, h2]
  · intro bs
    simp [connectRequest, encodeTargetAddr, h2]
  · intro bs hlen
    simp [connectRequest, encodeTargetAddr, h2, Nat.not_lt.mpr hlen]
  · intro bs hlen
    simp [connectRequest, encodeTargetAddr, hlen]
  · omega
  · omega
  · omega

/-- Witness for C6: a concrete IPv4 target with port 8080 and an
overlong domain name. -/
theorem C6_socks5_target_encoding_witness :
    connectRequest (HostForm.ip4 93 184 216 34) 8080 =
      some [5, 1, 0, 1, 93, 184, 216, 34, 31, 144] ∧
    connectRequest (HostForm.domain (List.replicate 256 97)) 8080 = none := by
  constructor
  · have h := (C6_socks5_target_encoding 8080 (by decide)).1 93 184 216 34
    simpa using h
  · exact (C6_socks5_target_encoding 8080 (by decide)).2.2.2.1 (List.replicate 256 97) (by simp only [List.length_replicate]; omega)

/-- Claim C4 counterexample: in c4Tokens the first thumbnail occurrence
carries no url attribute and no text, so its recorded value is the
empty string, and the scanner then accepts the second occurrence: the
recorded thumbnail is the second value, not the value of the first
occurrence, so later occurrences are not always ignored. -/
theorem C4_counterexample :
    extractItemThumbnails c4Tokens = ["https://example.com/second.png"] ∧
    ¬ extractItemThumbnails c4Tokens = [""] := by
  decide

/-- Claim C4 (amended): once a non-empty thumbnail value has been
recorded for the current item, a further thumbnail start element inside
the same item is skipped whole and leaves the recorded value, the item
state and the accumulated output unchanged: the first occurrence that
yields a non-empty value wins and is never overwritten. -/
theorem C4_first_nonempty_thumbnail_wins (fuel : Nat) (rest : List XmlTok)
    (endsInError : Bool) (current : String) (thumbnails : List String)
    (attrs : List (String × String)) (h : ¬ current = "") :
    extractLoop (fuel + 1) (XmlTok.startEl "thumbnail" attrs :: rest) endsInError true current thumbnails =
      extractLoop fuel (skipEl rest 0) endsInError true current thumbnails := by
  have hl : lowerAscii "thumbnail" = "thumbnail" := rfl
  rw [extractLoop.eq_3]
  simp only [hl]
  simp [h]

/-- Witness for C4: a recorded value u1 survives a second thumbnail
element carrying the attribute u2. -/
theorem C4_first_nonempty_thumbnail_wins_witness :
    extractLoop 3 (XmlTok.startEl "thumbnail" [("url", "u2")] ::
        [XmlTok.endEl "thumbnail", XmlTok.endEl "item"]) false true "u1" [] =
      extractLoop 2 (skipEl [XmlTok.endEl "thumbnail", XmlTok.endEl "item"] 0) false true "u1" [] :=
  C4_first_nonempty_thumbnail_wins 2 [XmlTok.endEl "thumbnail", XmlTok.endEl "item"]
    false "u1" [] [("url", "u2")] (by decide)

/-- Helper: Decoder.Skip consumes part of the remaining stream, so the
remainder is never longer than the input. -/
theorem skipEl_length_le (ts : List XmlTok) :
    ∀ depth : Nat, (skipEl ts depth).length ≤ ts.length := by
  induction ts with
  | nil =>
    intro d
    simp [skipEl]
  | cons tok rest ih =>
    intro d
    cases tok with
    | startEl name attrs => exact le_trans (ih (d + 1)) (by simp)
    | endEl name =>
      simp only [skipEl]
      split
      · simp
      · exact le_trans (ih (d - 1)) (by simp)
    | chardata s => exact le_trans (ih d) (by simp)
    | other => exact le_trans (ih d) (by simp)

/-- Helper: Decoder.DecodeElement consumes part of the remaining
stream, so the remainder is never longer than the input. -/
theorem decodeElText_length_le (ts : List XmlTok) :
    ∀ (depth : Nat) (acc v : String) (rest : List XmlTok),
      decodeElText ts depth acc = some (v, rest) → rest.length ≤ ts.length := by
  induction ts with
  | nil =>
    intro d acc v rest h
    exact Option.noConfusion h
  | cons tok tl ih =>
    intro d acc v rest h
    cases tok with
    | startEl name attrs => exact le_trans (ih (d + 1) acc v rest h) (by simp)
    | endEl name =>
      simp only [decodeElText] at h
      split at h
      · simp only [Option.some.injEq, Prod.mk.injEq] at h
        rw [← h.2]
        simp
      · exact le_trans (ih (d - 1) acc v rest h) (by simp)
    | chardata s =>
      exact le_trans (ih d (if d = 0 then acc ++ s else acc) v rest h) (by simp)
    | other => exact le_trans (ih d acc v rest h) (by simp)

/-- Any fuel at least the stream length produces the same scanner run:
the fuel bound of extractLoop is never what terminates the loop, so the
fuel-based definition coincides with the unbounded source loop. -/
theorem extractLoop_fuel_ge :
    ∀ (n : Nat) (ts : List XmlTok), ts.length ≤ n →
      ∀ f1 f2 : Nat, ts.length ≤ f1 → ts.length ≤ f2 →
      ∀ (e inItem : Bool) (current : String) (thumbnails : List String),
        extractLoop f1 ts e inItem current thumbnails =
          extractLoop f2 ts e inItem current thumbnails := by
  intro n
  induction n with
  | zero =>
    intro ts hts f1 f2 h1 h2 e inItem current thumbnails
    have hnil : ts = [] := List.length_eq_zero.mp (Nat.le_zero.mp hts)
    subst hnil
    cases f1 <;> cases f2 <;> rfl
  | succ n ih =>
    intro ts hts f1 f2 h1 h2 e inItem current thumbnails
    cases ts with
    | nil => cases f1 <;> cases f2 <;> rfl
    | cons tok rest =>
      cases f1 with
      | zero => exact absurd h1 (by simp)
      | succ m1 =>
        cases f2 with
        | zero => exact absurd h2 (by simp)
        | succ m2 =>
          have hrest : rest.length ≤ n := by
            simp only [List.length_cons] at hts
            omega
          have hm1 : rest.length ≤ m1 := by
            simp only [List.length_cons] at h1
            omega
          have hm2 : rest.length ≤ m2 := by
            simp only [List.length_cons] at h2
            omega
          have hskip := skipEl_length_le rest 0
          cases tok with
          | startEl name attrs =>
            rw [extractLoop.eq_3, extractLoop.eq_3]
            split
            · exact ih rest hrest m1 m2 hm1 hm2 _ _ _ _
            · split
              · exact ih rest hrest m1 m2 hm1 hm2 _ _ _ _
              · split
                · exact ih (skipEl rest 0) (by omega) m1 m2 (by omega) (by omega) _ _ _ _
                · split
                  · exact ih (skipEl rest 0) (by omega) m1 m2 (by omega) (by omega) _ _ _ _
                  · cases hdec : decodeElText rest 0 "" with
                    | none => exact ih [] (by simp) m1 m2 (by simp) (by simp) _ _ _ _
                    | some p =>
                      obtain ⟨value, rest2⟩ := p
                      have hr2 := decodeElText_length_le rest 0 "" value rest2 hdec
                      exact ih rest2 (by omega) m1 m2 (by omega) (by omega) _ _ _ _
          | endEl name =>
            rw [extractLoop.eq_4, extractLoop.eq_4]
            split
            · exact ih rest hrest m1 m2 hm1 hm2 _ _ _ _
            · exact ih rest hrest m1 m2 hm1 hm2 _ _ _ _
          | chardata s => exact ih rest hrest m1 m2 hm1 hm2 _ _ _ _
          | other => exact ih rest hrest m1 m2 hm1 hm2 _ _ _ _

/-- Any fuel surplus leaves extractItemThumbnails unchanged. -/
theorem extractItemThumbnails_fuel_stable (body : TokenStream) (k : Nat) :
    extractLoop (body.toks.length + k) body.toks body.endsInError false "" [] =
      extractItemThumbnails body :=
  extractLoop_fuel_ge body.toks.length body.toks (le_refl _) _ _ (by omega) (le_refl _) _ _ _ _

/-- The endsInError flag never changes the scanner output: both return
sites of the source loop yield the accumulated thumbnails. -/
theorem extractLoop_flag_irrel (fuel : Nat) :
    ∀ (ts : List XmlTok) (e1 e2 inItem : Bool) (current : String) (thumbnails : List String),
      extractLoop fuel ts e1 inItem current thumbnails =
        extractLoop fuel ts e2 inItem current thumbnails := by
  induction fuel with
  | zero =>
    intro ts e1 e2 inItem current thumbnails
    cases ts with
    | nil => cases e1 <;> cases e2 <;> rfl
    | cons tok rest => rfl
  | succ n ih =>
    intro ts e1 e2 inItem current thumbnails
    cases ts with
    | nil => cases e1 <;> cases e2 <;> rfl
    | cons tok rest =>
      cases tok with
      | startEl name attrs =>
        rw [extractLoop.eq_3, extractLoop.eq_3]
        split
        · exact ih _ _ _ _ _ _
        · split
          · exact ih _ _ _ _ _ _
          · split
            · exact ih _ _ _ _ _ _
            · split
              · exact ih _ _ _ _ _ _
              · split
                · exact ih _ _ _ _ _ _
                · exact ih _ _ _ _ _ _
      | endEl name =>
        rw [extractLoop.eq_4, extractLoop.eq_4]
        split
        · exact ih _ _ _ _ _ _
        · exact ih _ _ _ _ _ _
      | chardata s => exact ih rest e1 e2 inItem current thumbnails
      | other => exact ih rest e1 e2 inItem current thumbnails

/-- Helper: the length of the assembled item list equals the number of
parsed items, for every starting index. -/
theorem assembleItems_length (fs : List FeedItem) (ts : List String) :
    ∀ i : Nat, (assembleItems fs ts i).length = fs.length := by
  induction fs with
  | nil => intro i; rfl
  | cons a fs ih =>
    intro i
    simp [assembleItems, ih]

/-- Helper: element j of the assembled item list is the j-th parsed item
paired with thumbnail i + j (empty beyond the scanned count). -/
theorem assembleItems_getD (fs : List FeedItem) (ts : List String) :
    ∀ i j : Nat, j < fs.length →
      (assembleItems fs ts i).getD j default =
        NewItemMeta (fs.getD j default)
          (if i + j < ts.length then ts.getD (i + j) "" else "") := by
  induction fs with
  | nil =>
    intro i j h
    simp at h
  | cons a fs ih =>
    intro i j h
    cases j with
    | zero => simp [assembleItems]
    | succ j =>
      have hj : j < fs.length := by simpa using h
      have := ih (i + 1) j hj
      simp only [assembleItems, List.getD_cons_succ, this]
      have harith : i + 1 + j = i + (j + 1) := by omega
      rw [harith]

/-- Helper: a successful fetchAndParse result carries exactly the parsed
feed and the thumbnails scanned from the captured token stream. -/
theorem fetchAndParse_ok_inv (url : String) (env : FetchEnv) (maxBytes : Int)
    (feed : Feed) (thumbs : List String)
    (h : (fetchAndParse url env maxBytes).result = Except.ok (feed, thumbs)) :
    feed = env.parsedFeed ∧ thumbs = extractItemThumbnails env.bodyTokens := by
  simp only [fetchAndParse] at h
  repeat' split at h
  all_goals simp at h
  all_goals exact ⟨h.1.symm, h.2.symm⟩

/-- Claim C1: for every successful conversion the response has exactly
one output item per parsed entry, in document order; item j carries
scanned thumbnail j when j is below the scanned count and the empty
string otherwise (scanned thumbnails beyond the entry count are
discarded because each output item comes from a parsed entry). -/
theorem C1_convert_pairs_thumbnails (url : String) (env : FetchEnv) (maxBytes : Int)
    (resp : Response) (h : Convert url env maxBytes = Except.ok resp) :
    resp.status = "ok" ∧
    resp.items.length = env.parsedFeed.items.length ∧
    ∀ j : Nat, j < resp.items.length →
      (resp.items.getD j default).thumbnail =
        (if j < (extractItemThumbnails env.bodyTokens).length
         then (extractItemThumbnails env.bodyTokens).getD j "" else "") ∧
      (resp.items.getD j default).item =
        (stripExtensions env.parsedFeed).items.getD j default := by
  unfold Convert at h
  split at h
  · exact Except.noConfusion h
  · rename_i hne
    split at h
    · exact Except.noConfusion h
    · rename_i feed thumbs heq
      have hinv := fetchAndParse_ok_inv url env maxBytes feed thumbs heq
      obtain ⟨hfeed, hthumbs⟩ := hinv
      have hr : resp =
          { status := "ok", version := APIVersion, feed := stripExtensions feed,
            items := assembleItems (stripExtensions feed).items thumbs 0,
            message := "" } := by
        cases h
        rfl
      subst hr
      subst hfeed
      subst hthumbs
      refine ⟨rfl, ?_, ?_⟩
      · simp [assembleItems_length, stripExtensions]
      · intro j hj
        have hjlen : j < (stripExtensions env.parsedFeed).items.length := by
          simpa [assembleItems_length] using hj
        have hg := assembleItems_getD (stripExtensions env.parsedFeed).items
          (extractItemThumbnails env.bodyTokens) 0 j hjlen
        simp only [Nat.zero_add] at hg
        rw [hg]
        exact ⟨rfl, rfl⟩

/-- Witness for C1: a concrete conversion with two parsed entries and
one scanned thumbnail. -/
theorem C1_convert_pairs_thumbnails_witness :
    c1Resp.status = "ok" ∧ c1Resp.items.length = c1Env.parsedFeed.items.length :=
  ⟨(C1_convert_pairs_thumbnails "https://example.com/rss" c1Env 1024 c1Resp (by rfl)).1,
    (C1_convert_pairs_thumbnails "https://example.com/rss" c1Env 1024 c1Resp (by rfl)).2.1⟩

/-- Helper: a parse failure is never the size-limit error (the detail
messages differ in their first character). -/
theorem parseFail_ne_sizeLimit (m : String) (N : Int) :
    ¬ parseFailError m = sizeLimitError N := by
  intro h
  have h2 : ("解析 RSS 失败: " ++ m).data.head? =
      ("RSS 内容超过限制: " ++ toString N ++ " bytes").data.head? :=
    congrArg (fun e => e.cause.msg.data.head?) h
  rw [show ("解析 RSS 失败: " ++ m).data.head? = some '解' from rfl] at h2
  rw [show ("RSS 内容超过限制: " ++ toString N ++ " bytes").data.head? = some 'R' from rfl] at h2
  exact absurd h2 (by decide)

/-- Helper: a transport failure is never the size-limit error (the
detail messages differ in their first character). -/
theorem downloadFail_ne_sizeLimit (c : Cause) (N : Int) :
    ¬ downloadFailError c = sizeLimitError N := by
  intro h
  have h2 : ("下载 RSS 失败: " ++ c.msg).data.head? =
      ("RSS 内容超过限制: " ++ toString N ++ " bytes").data.head? :=
    congrArg (fun e => e.cause.msg.data.head?) h
  rw [show ("下载 RSS 失败: " ++ c.msg).data.head? = some '下' from rfl] at h2
  rw [show ("RSS 内容超过限制: " ++ toString N ++ " bytes").data.head? = some 'R' from rfl] at h2
  exact absurd h2 (by decide)

/-- Claim C2: with a positive configured ceiling N, a response that
delivers at most N body bytes is never rejected by the size limit (the
fetch succeeds when the parser succeeds and yields a parse error
otherwise), while any fetch whose streamed read reaches N + 1 bytes
(body and parser demand both at least N + 1) fails with the Upstream
size-limit error, which is distinct from parse failures and from other
transport failures. -/
theorem C2_size_ceiling_boundary (url : String) (env : FetchEnv) (N : Int)
    (hN : 0 < N) (hctl : containsCTLByte url = false) (hscheme : isHTTPScheme url = true)
    (hdo : env.doErr = none) (hst1 : 200 ≤ env.status) (hst2 : env.status < 300) :
    ((env.bodyLen : Int) ≤ N →
      ¬ (fetchAndParse url env N).result = Except.error (sizeLimitError N) ∧
      (env.parseOk = true →
        (fetchAndParse url env N).result =
          Except.ok (env.parsedFeed, extractItemThumbnails env.bodyTokens)) ∧
      (env.parseOk = false →
        (fetchAndParse url env N).result = Except.error (parseFailError env.parseErrMsg))) ∧
    (N + 1 ≤ (env.bodyLen : Int) → N + 1 ≤ (env.parseReadLen : Int) →
      (fetchAndParse url env N).result = Except.error (sizeLimitError N)) ∧
    (sizeLimitError N).kind = ErrorKind.upstream ∧
    (∀ m : String, ¬ parseFailError m = sizeLimitError N) ∧
    (∀ c : Cause, ¬ downloadFailError c = sizeLimitError N) := by
  have hstat : ¬ (env.status < 200 ∨ 300 ≤ env.status) := by omega
  refine ⟨?_, ?_, rfl, fun m => parseFail_ne_sizeLimit m N, fun c => downloadFail_ne_sizeLimit c N⟩
  · intro hb
    have hne : ¬ (min env.parseReadLen (min env.bodyLen (N + 1).toNat) = (N + 1).toNat) := by
      omega
    have hfp : (fetchAndParse url env N).result =
        (if env.parseOk = false then Except.error (parseFailError env.parseErrMsg)
         else Except.ok (env.parsedFeed, extractItemThumbnails env.bodyTokens)) := by
      simp [fetchAndParse, hctl, hscheme, hdo, hstat, hN, hne]
      try split <;> rfl
    refine ⟨?_, ?_, ?_⟩
    · rw [hfp]
      split
      · intro hcon
        have hinj : parseFailError env.parseErrMsg = sizeLimitError N := by
          exact Except.error.inj hcon
        exact parseFail_ne_sizeLimit _ _ hinj
      · intro hcon
        exact Except.noConfusion hcon
    · intro hp
      rw [hfp]
      simp [hp]
    · intro hp
      rw [hfp]
      simp [hp]
  · intro hb1 hb2
    have hmin : min env.parseReadLen (min env.bodyLen (N + 1).toNat) = (N + 1).toNat := by
      omega
    have hfp : (fetchAndParse url env N).result =
        (if env.parseOk = false then Except.error (sizeLimitError N)
         else Except.error (sizeLimitError N)) := by
      simp [fetchAndParse, hctl, hscheme, hdo, hstat, hN, hmin]
    rw [hfp]
    split
    · rfl
    · rfl

/-- Witness for C2: with ceiling 64, a 64-byte body converts cleanly
and a 65-byte body whose read drains the limited reader is rejected
with the size-limit error. -/
theorem C2_size_ceiling_boundary_witness :
    (fetchAndParse "https://example.com/rss" c2Env 64).result =
      Except.ok (c2Env.parsedFeed, extractItemThumbnails c2Env.bodyTokens) ∧
    (fetchAndParse "https://example.com/rss" { c2Env with bodyLen := 65 } 64).result =
      Except.error (sizeLimitError 64) := by
  constructor
  · exact ((C2_size_ceiling_boundary "https://example.com/rss" c2Env 64 (by decide)
      rfl rfl rfl (by decide) (by decide)).1 (by decide)).2.1 rfl
  · exact (C2_size_ceiling_boundary "https://example.com/rss" { c2Env with bodyLen := 65 } 64
      (by decide) rfl rfl rfl (by decide) (by decide)).2.1 (by decide) (by decide)

/-- Helper: a nonempty whitespace-only URL yields no scheme (its first
character is whitespace, which is neither a colon nor ASCII-alphabetic,
so getScheme stops at once), and the transport therefore never
dispatches it. -/
theorem whitespace_no_scheme (url : String) (hne : ¬ url = "")
    (hws : ∀ c ∈ url.data, isSpaceGo c = true) : isHTTPScheme url = false := by
  cases hd : url.data with
  | nil =>
    exact absurd (String.ext (hd.trans rfl)) hne
  | cons c cs =>
    have hc : isSpaceGo c = true := hws c (by rw [hd]; exact List.mem_cons_self c cs)
    have hc8 : c = ' ' ∨ c = '\t' ∨ c = '\n' ∨ c = Char.ofNat 11 ∨ c = Char.ofNat 12 ∨
        c = '\r' ∨ c = Char.ofNat 133 ∨ c = Char.ofNat 160 := by
      simp [isSpaceGo] at hc
      tauto
    unfold isHTTPScheme
    rw [hd]
    rcases hc8 with h | h | h | h | h | h | h | h <;> subst h <;> rfl

/-- Claim C3 counterexample: the single-space URL is whitespace-only,
passes the emptiness check of Convert and the control-byte check of
request creation (a space is not a control byte), and then fails at
dispatch, which fetchAndParse wraps with newUpstreamErr: the classified
kind is Upstream, not InvalidInput, refuting the claim at this input. -/
theorem C3_counterexample :
    errKindOf (Convert " " c3Env 1024) = some ErrorKind.upstream ∧
    ¬ errKindOf (Convert " " c3Env 1024) = some ErrorKind.invalidInput := by
  decide

/-- Claim C3 (amended): every whitespace-only URL fails, and the kind
splits as follows.  The empty URL fails with the InvalidInput
missing-url error of Convert (fully determined by the repository
source).  A nonempty whitespace-only URL containing a control byte
(tab, newline, vertical tab, form feed, carriage return) fails with
kind InvalidInput, because request creation rejects it and fetchAndParse
wraps that with newInvalidInputErr.  A nonempty whitespace-only URL
without control bytes (spaces, next-line, no-break space) passes
request creation, has no scheme, is rejected at dispatch, and
fetchAndParse wraps that with newUpstreamErr: kind Upstream.  Only the
kind is asserted for the two fetch branches, because the repository
source determines the kind while the wrapped cause text comes from the
Go standard library. -/
theorem C3_whitespace_url_amended (url : String) (env : FetchEnv) (maxBytes : Int)
    (hws : ∀ c ∈ url.data, isSpaceGo c = true) :
    (url = "" → Convert url env maxBytes = Except.error missingURLError ∧
      missingURLError.kind = ErrorKind.invalidInput) ∧
    (¬ url = "" → containsCTLByte url = true →
      errKindOf (Convert url env maxBytes) = some ErrorKind.invalidInput) ∧
    (¬ url = "" → containsCTLByte url = false →
      errKindOf (Convert url env maxBytes) = some ErrorKind.upstream) := by
  refine ⟨?_, ?_, ?_⟩
  · intro h
    exact ⟨by simp [Convert, h], rfl⟩
  · intro hne hctl
    simp [Convert, hne, errKindOf, fetchAndParse, hctl, requestCreateError,
      newInvalidInputErr]
  · intro hne hctl
    have hs := whitespace_no_scheme url hne hws
    simp [Convert, hne, errKindOf, fetchAndParse, hctl, hs, schemeDoError,
      downloadFailError, newUpstreamErr]

/-- Witness for C3: a tab URL takes the InvalidInput request-creation
branch and a two-space URL takes the Upstream dispatch branch of the
amended statement. -/
theorem C3_whitespace_url_amended_witness :
    errKindOf (Convert "\t" c3Env 1024) = some ErrorKind.invalidInput ∧
    errKindOf (Convert "  " c3Env 1024) = some ErrorKind.upstream :=
  ⟨(C3_whitespace_url_amended "\t" c3Env 1024 (by decide)).2.1 (by decide) (by decide),
    (C3_whitespace_url_amended "  " c3Env 1024 (by decide)).2.2 (by decide) (by decide)⟩

/-- Claim C5: a response status outside [200, 300) makes the conversion
fail with the Upstream status error, whose detail embeds the status
code, and no body byte is read. -/
theorem C5_non2xx_status (url : String) (env : FetchEnv) (maxBytes : Int)
    (hctl : containsCTLByte url = false) (hscheme : isHTTPScheme url = true)
    (hdo : env.doErr = none) (hstatus : env.status < 200 ∨ 300 ≤ env.status) :
    Convert url env maxBytes = Except.error (statusError env.status) ∧
    (statusError env.status).kind = ErrorKind.upstream ∧
    (statusError env.status).cause.msg = "RSS 返回非 2xx 状态码: " ++ toString env.status ∧
    (fetchAndParse url env maxBytes).bytesBodyRead = 0 := by
  have hne : ¬ url = "" := by
    intro hcon
    rw [hcon] at hscheme
    exact absurd hscheme (by decide)
  have hsp : (env.status < 200 ∨ 300 ≤ env.status) = True := eq_true hstatus
  refine ⟨?_, rfl, rfl, ?_⟩
  · simp [Convert, hne, fetchAndParse, hctl, hscheme, hdo, hsp]
  · simp [fetchAndParse, hctl, hscheme, hdo, hsp]

/-- Witness for C5: a 404 response is rejected with the status error
and zero body bytes read. -/
theorem C5_non2xx_status_witness :
    Convert "https://example.com/rss" c5Env 1024 = Except.error (statusError 404) :=
  (C5_non2xx_status "https://example.com/rss" c5Env 1024 rfl rfl rfl (by decide)).1

/-- Helper: fetchAndParse ignores the captured token stream in
everything except the thumbnail component of a successful result. -/
theorem fetchAndParse_tokens_irrel (url : String) (env : FetchEnv) (maxBytes : Int)
    (s1 s2 : TokenStream) :
    (fetchAndParse url { env with bodyTokens := s1 } maxBytes).result.map Prod.fst =
      (fetchAndParse url { env with bodyTokens := s2 } maxBytes).result.map Prod.fst := by
  simp only [fetchAndParse]
  repeat' split
  all_goals rfl

/-- Claim C8: the thumbnail scan is a total function whose output does
not depend on whether the token stream ends in a decoder error (both
return sites yield the thumbnails accumulated for the items completed
so far), and the primary conversion outcome (classified error, status,
version and feed) is identical for any two token streams: the scan
never fails the conversion. -/
theorem C8_scan_best_effort (url : String) (env : FetchEnv) (maxBytes : Int)
    (ts : List XmlTok) (b : Bool) (s1 s2 : TokenStream) :
    extractItemThumbnails ⟨ts, b⟩ = extractItemThumbnails ⟨ts, false⟩ ∧
    convCore (Convert url { env with bodyTokens := s1 } maxBytes) =
      convCore (Convert url { env with bodyTokens := s2 } maxBytes) := by
  constructor
  · exact extractLoop_flag_irrel ts.length ts b false false "" []
  · by_cases hu : url = ""
    · simp [Convert, hu]
    · have hmap := fetchAndParse_tokens_irrel url env maxBytes s1 s2
      simp only [Convert, if_neg hu]
      cases h1 : (fetchAndParse url { env with bodyTokens := s1 } maxBytes).result with
      | error e1 =>
        cases h2 : (fetchAndParse url { env with bodyTokens := s2 } maxBytes).result with
        | error e2 =>
          rw [h1, h2] at hmap
          simp [Except.map] at hmap
          rw [hmap]
        | ok p2 =>
          rw [h1, h2] at hmap
          simp [Except.map] at hmap
      | ok p1 =>
        cases h2 : (fetchAndParse url { env with bodyTokens := s2 } maxBytes).result with
        | error e2 =>
          rw [h1, h2] at hmap
          simp [Except.map] at hmap
        | ok p2 =>
          obtain ⟨f1, t1⟩ := p1
          obtain ⟨f2, t2⟩ := p2
          rw [h1, h2] at hmap
          simp [Except.map] at hmap
          rw [hmap]
          rfl

end Rss2Json
